import Mathlib

/-!
Shallow embedding of the PhaseNet-TF sample-construction pipeline
(`src/data/components/ai4eps.py`) together with the parts of
`src/data/components/utils.py` that the repository itself does not ship
(those are modelled from the specification, see the doc comments).

Machine integers are modelled as `Int`/`Nat` (Python integers are unbounded,
so no wrap-around is needed); waveform amplitudes and label values, which the
code holds in floating point, are modelled as exact rationals `ℚ` — none of
the verified claims depends on rounding of amplitudes.  Fallible Python code
(list indexing, h5 lookup, `min` of an empty list) is embedded in `Except`.
-/

set_option autoImplicit false

namespace PhaseNetTF

/-- Error classes raised by the embedded Python code: `indexError` for
out-of-range list indexing, `keyError` for an h5 lookup miss, `valueError`
for `min` of an empty sequence. -/
inductive PyErr where
  | indexError
  | keyError
  | valueError
deriving DecidableEq, Repr

/-- Python index normalization for slices with step 1: a negative index is
shifted by the length, then the result is clamped into `[0, n]`.  This is the
semantics CPython (and torch/numpy along one dimension) applies to the
endpoints of `l[a:b]`. -/
def pyIdx (n : Nat) (i : Int) : Nat :=
  if i < 0 then min (i + n).toNat n else min i.toNat n

/-- Python slice `l[start:stop]` (step 1): endpoints are normalized with
`pyIdx` and the result is the (possibly empty, possibly short) segment in
between.  Out-of-range bounds are silently clamped, never an error. -/
def pySlice {α : Type} (l : List α) (start stop : Int) : List α :=
  (l.drop (pyIdx l.length start)).take (pyIdx l.length stop - pyIdx l.length start)

/-- Python list subscription `l[i]`: a negative index is shifted by the
length once; the access succeeds exactly when the shifted index lies in
`[0, len(l))`, otherwise Python raises IndexError (here: `none`). -/
def pyListGet {α : Type} (l : List α) (i : Int) : Option α :=
  if i < 0 then
    if 0 ≤ i + l.length then l.get? (i + l.length).toNat else none
  else
    if i < l.length then l.get? i.toNat else none

/-- Raw contents of one h5 group `f[event_id][station_id]`: the channel×time
amplitude matrix (`[...]`) and the attributes `network`, `phase_index`,
`phase_type` (two parallel lists). -/
structure WaveformRecord where
  network : String
  data : List (List ℚ)
  phase_index : List Int
  phase_type : List String
deriving DecidableEq, Repr

/-- The waveform store: `(event_id, station_id) ↦ record`, `none` modelling a
KeyError on a missing key.  This stands for the lazily opened `waveform.h5`
handler, which is external to the pipeline. -/
abbrev Store : Type := String → String → Option WaveformRecord

/-- The sample dictionary built by `Ai4epsDataset.get_item_without_stack`.
All keys the Python dict ever holds are modelled as fields; `label` is `[]`
until the label-generation step fills it. -/
structure Sample where
  event_id : String
  network : String
  station_id : String
  data : List (List ℚ)
  phase_index : List Int
  phase_type : List String
  start_index : Int
  end_index : Int
  label : List (List ℚ)
deriving DecidableEq, Repr

/-- The sample returned by `Ai4epsDataset.__getitem__`, after
`start_index`/`end_index` have been popped from the dict. -/
structure FinalSample where
  event_id : String
  network : String
  station_id : String
  data : List (List ℚ)
  phase_index : List Int
  phase_type : List String
  label : List (List ℚ)
deriving DecidableEq, Repr

/-- The sentinel the code stores for a canonical phase that has no pick
(`ai4eps.py` line 110). -/
def absentSentinel : Int := -999999999

/-- Type of the gaussian bump evaluation `(label_width, arrival, t) ↦ value`.
The gaussian branch of `generate_label` computes `exp(-(t-i)^2/(2*sigma^2))`,
a transcendental quantity; the embedding takes the evaluation function as a
parameter so that every theorem below holds for any realization of it (no
verified claim depends on the numeric values of the bump). -/
abbrev GaussFn : Type := Nat → Int → Int → ℚ

/-- Triangle bump value `max 0 (1 - |t - i| / (w/2))` at position `t` for an
arrival at `i`, per the specification of `generate_label`. -/
def triangleCurveVal (w : Nat) (i t : Int) : ℚ :=
  max 0 (1 - |((t - i : Int) : ℚ)| / ((w : ℚ) / 2))

/-- Modelled from the spec: one row of `generate_label`
(`src/data/components/utils.py`, not shipped in this repository).  A phase
carrying the absent sentinel gets an identically zero row; a present phase
gets a length-`L` bump curve (triangle formula, or the gaussian evaluation
`g`) centered at its window-local index.  Any shape string other than
"triangle" selects the gaussian branch. -/
def labelRow (g : GaussFn) (shape : String) (w L : Nat) (i : Int) : List ℚ :=
  if i = absentSentinel then List.replicate L 0
  else (List.range L).map (fun t =>
    if shape = "triangle" then triangleCurveVal w i (Int.ofNat t) else g w i (Int.ofNat t))

/-- Modelled from the spec: `generate_label(shape, width, window_length,
phase_index)` from the missing `utils.py` — one curve per entry of the
(canonically ordered) phase-index vector, stacked into a `[phases, L]`
tensor. -/
def generate_label (g : GaussFn) (shape : String) (w L : Nat)
    (phase_index : List Int) : List (List ℚ) :=
  phase_index.map (labelRow g shape w L)

/-- Largest absolute value occurring in a channel (0 for an empty channel). -/
def maxAbsList (l : List ℚ) : ℚ :=
  l.foldr (fun x m => max |x| m) 0

/-- Epsilon floor used by the modelled normalizer to avoid division by zero
on silent channels. -/
def normEps : ℚ := 1 / 1000000

/-- Per-channel rescaling by the maximum absolute amplitude (with an epsilon
floor), per the normalizer contract. -/
def normalize_channel (ch : List ℚ) : List ℚ :=
  ch.map (fun x => x / max (maxAbsList ch) normEps)

/-- Modelled from the spec: `normalize_waveform` from the missing `utils.py`
— rescales each waveform channel to unit scale and leaves every other field
of the sample (labels, indices, metadata, bookkeeping) untouched. -/
def normalize_waveform (s : Sample) : Sample :=
  { s with data := s.data.map normalize_channel }

/-- Modelled from the spec: `stack_rand(a, b, label_width)` from the missing
`utils.py` — combines two independently assembled samples: waveforms are
summed elementwise, per-phase label curves are combined by elementwise
maximum, and the scalar phase index is taken from whichever input has the
phase present, preferring the first sample; metadata stays that of the first
sample.  The `label_width` argument is part of the call signature
(`ai4eps.py` line 138) but the stacking contract does not use it. -/
def stack_rand (a b : Sample) (label_width : Nat) : Sample :=
  let _ := label_width
  { a with
    data := List.zipWith (List.zipWith (· + ·)) a.data b.data,
    label := List.zipWith (List.zipWith max) a.label b.label,
    phase_index := List.zipWith
      (fun i j => if i ≠ absentSentinel then i else j) a.phase_index b.phase_index }

/-- First index of `a` in `l` (Python `l.index(a)` guarded by `a in l`):
`some k` for the first occurrence, `none` when absent. -/
def firstIdxOf (a : String) : List String → Option Nat
  | [] => none
  | x :: xs => if x = a then some 0 else (firstIdxOf a xs).map (· + 1)

/-- One loop step of the phase-expansion loop (`ai4eps.py` lines 105-110):
for a canonical phase `p`, look up the first occurrence of `p` in the
record's `phase_type`; if present, subscript the shifted index list at that
position (IndexError if the parallel lists disagree in length), otherwise
yield the absent sentinel. -/
def pickValue (ptype : List String) (shifted : List Int) (p : String) : Option Int :=
  match firstIdxOf p ptype with
  | some pos => shifted.get? pos
  | none => some absentSentinel

/-- The phase-expansion loop over the canonical phase list (`ai4eps.py`
lines 104-111), aborting with `none` at the first failing subscript. -/
def expandPhaseIndex (ptype : List String) (shifted : List Int) :
    List String → Option (List Int)
  | [] => some []
  | p :: ps =>
    match pickValue ptype shifted p, expandPhaseIndex ptype shifted ps with
    | some v, some rest => some (v :: rest)
    | _, _ => none

/-- Closed form of the successful phase expansion, stated directly on the
raw record data: canonical order, first occurrence wins, window-local shift
by `st`, sentinel for absent phases. -/
def expandedOf (phases ptype : List String) (pidx : List Int) (st : Int) : List Int :=
  phases.map (fun p =>
    match firstIdxOf p ptype with
    | some k => pidx.getD k 0 - st
    | none => absentSentinel)

/-- The `Ai4epsDataset` configuration state as stored by `__init__`
(`ai4eps.py` lines 19-47).  The h5 path/handler pair is replaced by the
`Store` parameter threaded through the access functions; the source field
`random_stack_two_waveforms_ratio` is renamed to
`random_stack_two_waveforms_prob` here for lexical reasons only. -/
structure Ai4epsDataset where
  index_to_waveform_id : List (String × String)
  transform : Option (Sample → Sample)
  label_shape : String
  label_width_in_npts : Nat
  window_length_in_npts : Nat
  phases : List String
  first_arrival_index_in_final_window_if_no_shift : Int
  random_stack_two_waveforms_prob : ℚ

/-- The `__init__` of `Ai4epsDataset` (`ai4eps.py` lines 19-47): it only
stores the configuration fields; no argument is validated. -/
def Ai4epsDataset.init (index_to_waveform_id : List (String × String))
    (transform : Option (Sample → Sample)) (label_shape : String)
    (label_width_in_npts : Nat) (window_length_in_npts : Nat)
    (phases : List String)
    (first_arrival_index_in_final_window_if_no_shift : Int)
    (random_stack_two_waveforms_prob : ℚ) : Ai4epsDataset :=
  { index_to_waveform_id := index_to_waveform_id
    transform := transform
    label_shape := label_shape
    label_width_in_npts := label_width_in_npts
    window_length_in_npts := window_length_in_npts
    phases := phases
    first_arrival_index_in_final_window_if_no_shift :=
      first_arrival_index_in_final_window_if_no_shift
    random_stack_two_waveforms_prob := random_stack_two_waveforms_prob }

/-- `Ai4epsDataset.__len__` (`ai4eps.py` line 65). -/
def Ai4epsDataset.len (ds : Ai4epsDataset) : Nat :=
  ds.index_to_waveform_id.length

/-- The sample dict right after the raw lookup and the bound computation
(`ai4eps.py` lines 79-94): raw data, raw parallel pick lists, and the
proposed window bounds stored under `start_index` / `end_index`. -/
def mkRawSample (event_id station_id : String) (rec : WaveformRecord)
    (st en : Int) : Sample :=
  { event_id := event_id
    network := rec.network
    station_id := station_id
    data := rec.data
    phase_index := rec.phase_index
    phase_type := rec.phase_type
    start_index := st
    end_index := en
    label := [] }

/-- The conditional application of the configured transform (`ai4eps.py`
lines 96-97). -/
def applyTransform : Option (Sample → Sample) → Sample → Sample
  | none, s => s
  | some f, s => f s

/-- Body of `Ai4epsDataset.get_item_without_stack` (`ai4eps.py` lines
67-118) up to but excluding the final `normalize_waveform` call: index the
id list (Python list subscription), look the record up in the store, take
`min` of the raw pick indices (ValueError when empty), compute the window
bounds, hand the sample to the optional transform, crop the (possibly
transformed) data with the *local* bounds, shift the pick indices by the
*local* start, and run the canonical phase-expansion loop. -/
def Ai4epsDataset.assemble_core (ds : Ai4epsDataset) (store : Store)
    (g : GaussFn) (idx : Int) : Except PyErr Sample :=
  match pyListGet ds.index_to_waveform_id idx with
  | none => .error .indexError
  | some ids =>
    match store ids.1 ids.2 with
    | none => .error .keyError
    | some rec =>
      match rec.phase_index.min? with
      | none => .error .valueError
      | some min_index =>
        let start_index : Int :=
          min_index - ds.first_arrival_index_in_final_window_if_no_shift
        let end_index : Int := start_index + (ds.window_length_in_npts : Int)
        let sample1 : Sample :=
          applyTransform ds.transform (mkRawSample ids.1 ids.2 rec start_index end_index)
        match expandPhaseIndex sample1.phase_type
            (sample1.phase_index.map (fun i => i - start_index)) ds.phases with
        | none => .error .indexError
        | some expanded =>
          .ok { sample1 with
                data := sample1.data.map (fun ch => pySlice ch start_index end_index)
                phase_index := expanded
                phase_type := ds.phases
                label := generate_label g ds.label_shape ds.label_width_in_npts
                  ds.window_length_in_npts expanded }

/-- `Ai4epsDataset.get_item_without_stack` (`ai4eps.py` lines 67-122):
the assembling core followed by the pre-stack `normalize_waveform`. -/
def Ai4epsDataset.get_item_without_stack (ds : Ai4epsDataset) (store : Store)
    (g : GaussFn) (idx : Int) : Except PyErr Sample :=
  (ds.assemble_core store g idx).map normalize_waveform

/-- Dropping the internal bookkeeping keys (`ai4eps.py` lines 143-144,
`pop('start_index')` / `pop('end_index')`). -/
def popBookkeeping (s : Sample) : FinalSample :=
  { event_id := s.event_id
    network := s.network
    station_id := s.station_id
    data := s.data
    phase_index := s.phase_index
    phase_type := s.phase_type
    label := s.label }

/-- `Ai4epsDataset.__getitem__` (`ai4eps.py` lines 124-146).  The two random
draws of the source (`torch.rand(1)` and `torch.randint(0, len(self), (1,))`)
are passed in explicitly as `u` (the uniform variate compared against the
stacking probability) and `partner` (the index of the second sample). -/
def Ai4epsDataset.getitem (ds : Ai4epsDataset) (store : Store) (g : GaussFn)
    (idx : Int) (u : ℚ) (partner : Int) : Except PyErr FinalSample :=
  match ds.get_item_without_stack store g idx with
  | .error e => .error e
  | .ok current =>
    if u < ds.random_stack_two_waveforms_prob then
      match ds.get_item_without_stack store g partner with
      | .error e => .error e
      | .ok rnd =>
        .ok (popBookkeeping
          (normalize_waveform (stack_rand current rnd ds.label_width_in_npts)))
    else
      .ok (popBookkeeping (normalize_waveform current))

/-- Closed form of the sample produced by `assemble_core` when no transform
is configured, stated directly in terms of the looked-up record and the
reference arrival `r`: window bounds `[r - offset, r - offset + L)`, the
Python slice of every raw channel, the canonical phase-index vector
`expandedOf`, and the synthesized label stack. -/
def assembledNoTransform (ds : Ai4epsDataset) (g : GaussFn) (ev stn : String)
    (rec : WaveformRecord) (r : Int) : Sample :=
  { mkRawSample ev stn rec
      (r - ds.first_arrival_index_in_final_window_if_no_shift)
      (r - ds.first_arrival_index_in_final_window_if_no_shift +
        (ds.window_length_in_npts : Int)) with
    data := rec.data.map (fun ch => pySlice ch
      (r - ds.first_arrival_index_in_final_window_if_no_shift)
      (r - ds.first_arrival_index_in_final_window_if_no_shift +
        (ds.window_length_in_npts : Int)))
    phase_index := expandedOf ds.phases rec.phase_type rec.phase_index
      (r - ds.first_arrival_index_in_final_window_if_no_shift)
    phase_type := ds.phases
    label := generate_label g ds.label_shape ds.label_width_in_npts
      ds.window_length_in_npts
      (expandedOf ds.phases rec.phase_type rec.phase_index
        (r - ds.first_arrival_index_in_final_window_if_no_shift)) }

/-- Python `int()` applied to a (here: exact rational) float product:
truncation toward zero. -/
def pyInt (q : ℚ) : Int :=
  if q < 0 then -(Int.floor (-q)) else Int.floor q

/-- One step of pandas `drop_duplicates` (keep the first occurrence):
`seen` accumulates the keys already emitted. -/
def dropDupAux {α : Type} [DecidableEq α] (seen : List α) : List α → List α
  | [] => []
  | x :: xs => if x ∈ seen then dropDupAux seen xs else x :: dropDupAux (x :: seen) xs

/-- pandas `drop_duplicates` over the rows of the pick table, keeping the
first occurrence of each key (`ai4eps.py` lines 162-163). -/
def dropDuplicates {α : Type} [DecidableEq α] (l : List α) : List α :=
  dropDupAux [] l

/-- `split_train_test_val_for_ai4eps` (`ai4eps.py` lines 149-169).  The rows
of `phase_picks.csv` are abstracted to their `(event_id, station_id)`
columns; `numpy.random.default_rng(seed)` followed by `rng.shuffle` is
abstracted to the `shuffle` parameter, a seed-indexed rearrangement (every
theorem below assumes only that it permutes its input, which is the shuffle
contract; determinism is inherited from `shuffle` being a function of the
seed).  `np.split(arr, [a, b])` is `arr[0:a], arr[a:b], arr[b:]` with Python
slice semantics; the boundaries are `int(ratio[0]*n)` and
`int((ratio[0]+ratio[1])*n)`, float products modelled as exact rationals. -/
def split_train_test_val_for_ai4eps
    (shuffle : Nat → List (String × String) → List (String × String))
    (seed : Nat) (rows : List (String × String)) (r0 r1 : ℚ) :
    List (String × String) × List (String × String) × List (String × String) :=
  let uniq := dropDuplicates rows
  let shuffled := shuffle seed uniq
  let n : Nat := shuffled.length
  let a : Int := pyInt (r0 * n)
  let b : Int := pyInt ((r0 + r1) * n)
  (pySlice shuffled 0 a, pySlice shuffled a b, pySlice shuffled b n)

/-- A gaussian evaluation used to instantiate `GaussFn` in concrete runs; the
theorems never depend on its values. -/
def g0 : GaussFn := fun _ _ _ => 0

/-- Concrete record for the C1 counterexample: a single channel of 10
samples whose earliest pick sits at raw index 1, closer to the left edge
than the configured offset of 2. -/
def C1rec : WaveformRecord :=
  { network := "n1"
    data := [[0, 1, 2, 3, 4, 5, 6, 7, 8, 9]]
    phase_index := [1]
    phase_type := ["P"] }

/-- Store holding `C1rec` under `("ev1", "s1")`. -/
def C1store : Store := fun e s =>
  if e = "ev1" ∧ s = "s1" then some C1rec else none

/-- Dataset for the C1 counterexample: window length 4, offset 2, no
transform, no stacking. -/
def C1ds : Ai4epsDataset :=
  Ai4epsDataset.init [("ev1", "s1")] none "triangle" 2 4 ["P"] 2 0

/-- Concrete record for the C1 witness: one channel of 8 samples, picks P at
3 and S at 5; with offset 1 and window length 4 the window [2, 6) fits. -/
def W1rec : WaveformRecord :=
  { network := "n1w"
    data := [[0, 1, 2, 3, 4, 5, 6, 7]]
    phase_index := [3, 5]
    phase_type := ["P", "S"] }

/-- Store holding `W1rec` under `("ew1", "t1")`. -/
def W1store : Store := fun e s =>
  if e = "ew1" ∧ s = "t1" then some W1rec else none

/-- Dataset for the C1 witness: window length 4, offset 1, stacking
probability 1/2 so the stacking branch is exercised. -/
def W1ds : Ai4epsDataset :=
  Ai4epsDataset.init [("ew1", "t1")] none "triangle" 2 4 ["P", "S"] 1 (1/2)

/-- Concrete record for the C2 witness: one channel of 10 samples, a single
P pick at raw index 5; offset 1 puts the window at [4, 8). -/
def W2rec : WaveformRecord :=
  { network := "n2"
    data := [[0, 1, 2, 3, 4, 5, 6, 7, 8, 9]]
    phase_index := [5]
    phase_type := ["P"] }

/-- Store holding `W2rec` under `("e2", "t2")`. -/
def W2store : Store := fun e s =>
  if e = "e2" ∧ s = "t2" then some W2rec else none

/-- Dataset for the C2 witness: window length 4, offset 1. -/
def W2ds : Ai4epsDataset :=
  Ai4epsDataset.init [("e2", "t2")] none "triangle" 2 4 ["P"] 1 0

/-- Concrete record for the C3 witness: picks are listed in discovery order
`X, S, P` where `X` is not a canonical phase. -/
def W3rec : WaveformRecord :=
  { network := "n3"
    data := [[0, 0, 0, 0, 0, 0, 0, 0, 0, 0, 0, 0]]
    phase_index := [5, 9, 7]
    phase_type := ["X", "S", "P"] }

/-- Store holding `W3rec` under `("e3", "t3")`. -/
def W3store : Store := fun e s =>
  if e = "e3" ∧ s = "t3" then some W3rec else none

/-- Dataset for the C3 witness: canonical phases `P, S, PS`, offset 2. -/
def W3ds : Ai4epsDataset :=
  Ai4epsDataset.init [("e3", "t3")] none "triangle" 2 4 ["P", "S", "PS"] 2 0

/-- The hook used against C4: it overwrites the proposed window bounds in
the sample (a bounds-jittering transform). -/
def C4hook : Sample → Sample := fun s =>
  { s with start_index := 0, end_index := 4 }

/-- Concrete record for C4: one channel holding 0..19, a single P pick at
raw index 10; offset 2 proposes the window [8, 12). -/
def C4rec : WaveformRecord :=
  { network := "n4"
    data := [[0, 1, 2, 3, 4, 5, 6, 7, 8, 9, 10, 11, 12, 13, 14, 15, 16, 17, 18, 19]]
    phase_index := [10]
    phase_type := ["P"] }

/-- Store holding `C4rec` under `("e4", "t4")`. -/
def C4store : Store := fun e s =>
  if e = "e4" ∧ s = "t4" then some C4rec else none

/-- Dataset for C4: window length 4, offset 2, with `C4hook` configured. -/
def C4ds : Ai4epsDataset :=
  Ai4epsDataset.init [("e4", "t4")] (some C4hook) "triangle" 2 4 ["P"] 2 0

/-- Concrete record for the C5 counterexample: earliest pick at raw index 0,
so the proposed window [-2, 2) starts before the waveform. -/
def C5rec : WaveformRecord :=
  { network := "n5"
    data := [[0, 1, 2, 3, 4, 5, 6, 7, 8, 9]]
    phase_index := [0]
    phase_type := ["P"] }

/-- Store holding `C5rec` under `("e5", "t5")`. -/
def C5store : Store := fun e s =>
  if e = "e5" ∧ s = "t5" then some C5rec else none

/-- Dataset for the C5 counterexample: window length 4, offset 2. -/
def C5ds : Ai4epsDataset :=
  Ai4epsDataset.init [("e5", "t5")] none "triangle" 2 4 ["P"] 2 0

/-- Concrete record for C6: a pick at raw index 10 in a channel of 12
samples, long enough that even the degenerate configuration crops cleanly. -/
def C6rec : WaveformRecord :=
  { network := "n6"
    data := [[0, 1, 2, 3, 4, 5, 6, 7, 8, 9, 10, 11]]
    phase_index := [10]
    phase_type := ["P"] }

/-- Store holding `C6rec` under `("e6", "t6")`. -/
def C6store : Store := fun e s =>
  if e = "e6" ∧ s = "t6" then some C6rec else none

/-- Dataset for C6: the offset (4) equals the window length (4), the
configuration the claim says must be rejected at construction time. -/
def C6ds : Ai4epsDataset :=
  Ai4epsDataset.init [("e6", "t6")] none "triangle" 2 4 ["P"] 4 0

/-- Concrete record for C8: a single P pick at raw index 3 in a channel of 8
samples. -/
def C8rec : WaveformRecord :=
  { network := "n8"
    data := [[0, 1, 2, 3, 4, 5, 6, 7]]
    phase_index := [3]
    phase_type := ["P"] }

/-- Store holding `C8rec` under `("ev8", "s8")`. -/
def C8store : Store := fun e s =>
  if e = "ev8" ∧ s = "s8" then some C8rec else none

/-- Dataset for C8: a single entry, window length 4, offset 1. -/
def C8ds : Ai4epsDataset :=
  Ai4epsDataset.init [("ev8", "s8")] none "triangle" 2 4 ["P"] 1 0

/-- Pick-table rows for the C9 witness: four rows with one duplicated key,
so the unique key set has three elements. -/
def W9rows : List (String × String) :=
  [("a", "1"), ("b", "2"), ("a", "1"), ("c", "3")]

/-- Shuffle used for the C9 witness: reversal, a permutation for every
input. -/
def W9shuffle : Nat → List (String × String) → List (String × String) :=
  fun _ l => l.reverse

/-- Concrete record for the C10 witness: the phase type P occurs twice in
the pick list, at raw indices 30 (first) and 50 (second). -/
def W10rec : WaveformRecord :=
  { network := "n10"
    data := [[0, 0, 0, 0, 0, 0]]
    phase_index := [30, 50]
    phase_type := ["P", "P"] }

/-- Store holding `W10rec` under `("e10", "t10")`. -/
def W10store : Store := fun e s =>
  if e = "e10" ∧ s = "t10" then some W10rec else none

/-- Dataset for the C10 witness: canonical phases `[P]`, offset 2. -/
def W10ds : Ai4epsDataset :=
  Ai4epsDataset.init [("e10", "t10")] none "triangle" 2 4 ["P"] 2 0

/-! Helper lemmas shared by the claim theorems. -/

theorem normalize_waveform_phase_index (s : Sample) :
    (normalize_waveform s).phase_index = s.phase_index := rfl

theorem normalize_waveform_label (s : Sample) :
    (normalize_waveform s).label = s.label := rfl

theorem normalize_waveform_data (s : Sample) :
    (normalize_waveform s).data = s.data.map normalize_channel := rfl

theorem normalize_channel_length (ch : List ℚ) :
    (normalize_channel ch).length = ch.length := List.length_map ch _

theorem labelRow_length (g : GaussFn) (shape : String) (w L : Nat) (i : Int) :
    (labelRow g shape w L i).length = L := by
  unfold labelRow
  split
  · exact List.length_replicate L 0
  · simp

theorem generate_label_length (g : GaussFn) (shape : String) (w L : Nat)
    (pidx : List Int) : (generate_label g shape w L pidx).length = pidx.length :=
  List.length_map pidx _

theorem generate_label_row_length (g : GaussFn) (shape : String) (w L : Nat)
    (pidx : List Int) : ∀ row ∈ generate_label g shape w L pidx, row.length = L := by
  intro row hrow
  obtain ⟨i, _, rfl⟩ := List.mem_map.mp hrow
  exact labelRow_length g shape w L i

theorem pyIdx_of_nonneg (n : Nat) (i : Int) (h0 : 0 ≤ i) (h : i.toNat ≤ n) :
    pyIdx n i = i.toNat := by
  unfold pyIdx
  rw [if_neg (not_lt.mpr h0)]
  omega

theorem pySlice_fit {α : Type} (l : List α) (st : Int) (L : Nat)
    (h0 : 0 ≤ st) (h : st.toNat + L ≤ l.length) :
    pySlice l st (st + (L : Int)) = (l.drop st.toNat).take L := by
  unfold pySlice
  rw [pyIdx_of_nonneg l.length st h0 (by omega),
    pyIdx_of_nonneg l.length (st + (L : Int)) (by omega) (by omega)]
  congr 1
  omega

theorem pySlice_fit_length {α : Type} (l : List α) (st : Int) (L : Nat)
    (h0 : 0 ≤ st) (h : st.toNat + L ≤ l.length) :
    (pySlice l st (st + (L : Int))).length = L := by
  rw [pySlice_fit l st L h0 h, List.length_take, List.length_drop]
  omega

theorem pyListGet_none_of_out {α : Type} (l : List α) (i : Int)
    (h : (l.length : Int) ≤ i ∨ i < -(l.length : Int)) :
    pyListGet l i = none := by
  unfold pyListGet
  rcases h with h | h
  · rw [if_neg (by omega), if_neg (by omega)]
  · rw [if_pos (by omega), if_neg (by omega)]

theorem firstIdxOf_lt_length {a : String} : ∀ {l : List String} {k : Nat},
    firstIdxOf a l = some k → k < l.length := by
  intro l
  induction l with
  | nil => intro k h; simp [firstIdxOf] at h
  | cons x xs ih =>
    intro k h
    unfold firstIdxOf at h
    by_cases hx : x = a
    · rw [if_pos hx] at h
      cases h
      simp
    · rw [if_neg hx] at h
      obtain ⟨k0, hk0, rfl⟩ := Option.map_eq_some'.mp h
      have := ih hk0
      simp only [List.length_cons]
      omega

theorem expandPhaseIndex_eq (ptype : List String) (pidx : List Int) (st : Int)
    (hlen : pidx.length = ptype.length) : ∀ (phases : List String),
    expandPhaseIndex ptype (pidx.map (fun i => i - st)) phases =
      some (expandedOf phases ptype pidx st) := by
  intro phases
  induction phases with
  | nil => rfl
  | cons p ps ih =>
    unfold expandPhaseIndex
    rw [ih]
    have hpick : pickValue ptype (pidx.map (fun i => i - st)) p =
        some ((expandedOf (p :: ps) ptype pidx st).headI) := by
      unfold pickValue expandedOf
      cases hf : firstIdxOf p ptype with
      | none => simp [hf]
      | some k =>
        have hk : k < pidx.length := hlen ▸ firstIdxOf_lt_length hf
        simp only [hf, List.map_cons, List.headI]
        rw [List.get?_eq_getElem?, List.getElem?_map, List.getElem?_eq_getElem hk,
          List.getD_eq_getElem pidx 0 hk]
        rfl
    rw [hpick]
    simp [expandedOf]

theorem applyTransform_none (s : Sample) : applyTransform none s = s := rfl

theorem assemble_core_eq (ds : Ai4epsDataset) (store : Store) (g : GaussFn)
    (idx : Int) (ev stn : String) (rec : WaveformRecord) (r : Int) (E : List Int)
    (hl : pyListGet ds.index_to_waveform_id idx = some (ev, stn))
    (hs : store ev stn = some rec)
    (hm : rec.phase_index.min? = some r)
    (hexp : expandPhaseIndex
      (applyTransform ds.transform (mkRawSample ev stn rec
        (r - ds.first_arrival_index_in_final_window_if_no_shift)
        (r - ds.first_arrival_index_in_final_window_if_no_shift +
          (ds.window_length_in_npts : Int)))).phase_type
      ((applyTransform ds.transform (mkRawSample ev stn rec
        (r - ds.first_arrival_index_in_final_window_if_no_shift)
        (r - ds.first_arrival_index_in_final_window_if_no_shift +
          (ds.window_length_in_npts : Int)))).phase_index.map
        (fun i => i - (r - ds.first_arrival_index_in_final_window_if_no_shift)))
      ds.phases = some E) :
    ds.assemble_core store g idx = .ok
      { applyTransform ds.transform (mkRawSample ev stn rec
          (r - ds.first_arrival_index_in_final_window_if_no_shift)
          (r - ds.first_arrival_index_in_final_window_if_no_shift +
            (ds.window_length_in_npts : Int))) with
        data := (applyTransform ds.transform (mkRawSample ev stn rec
          (r - ds.first_arrival_index_in_final_window_if_no_shift)
          (r - ds.first_arrival_index_in_final_window_if_no_shift +
            (ds.window_length_in_npts : Int)))).data.map
          (fun ch => pySlice ch
            (r - ds.first_arrival_index_in_final_window_if_no_shift)
            (r - ds.first_arrival_index_in_final_window_if_no_shift +
              (ds.window_length_in_npts : Int)))
        phase_index := E
        phase_type := ds.phases
        label := generate_label g ds.label_shape ds.label_width_in_npts
          ds.window_length_in_npts E } := by
  unfold Ai4epsDataset.assemble_core
  simp only [hl, hs, hm, hexp]

theorem get_item_eq_of_no_transform (ds : Ai4epsDataset) (store : Store)
    (g : GaussFn) (idx : Int) (ev stn : String) (rec : WaveformRecord) (r : Int)
    (hl : pyListGet ds.index_to_waveform_id idx = some (ev, stn))
    (hs : store ev stn = some rec)
    (hm : rec.phase_index.min? = some r)
    (ht : ds.transform = none)
    (hlen : rec.phase_index.length = rec.phase_type.length) :
    ds.get_item_without_stack store g idx =
      .ok (normalize_waveform (assembledNoTransform ds g ev stn rec r)) := by
  have hexp := expandPhaseIndex_eq rec.phase_type rec.phase_index
    (r - ds.first_arrival_index_in_final_window_if_no_shift) hlen ds.phases
  have h := assemble_core_eq ds store g idx ev stn rec r
    (expandedOf ds.phases rec.phase_type rec.phase_index
      (r - ds.first_arrival_index_in_final_window_if_no_shift))
    hl hs hm (by rw [ht]; exact hexp)
  rw [ht] at h
  unfold Ai4epsDataset.get_item_without_stack
  rw [h]
  rfl

theorem mem_dropDupAux {α : Type} [DecidableEq α] (a : α) :
    ∀ (l seen : List α), a ∈ dropDupAux seen l ↔ a ∈ l ∧ a ∉ seen := by
  intro l
  induction l with
  | nil => intro seen; simp [dropDupAux]
  | cons x xs ih =>
    intro seen
    unfold dropDupAux
    by_cases hx : x ∈ seen
    · rw [if_pos hx, ih]
      constructor
      · rintro ⟨hmem, hns⟩
        exact ⟨List.mem_cons_of_mem x hmem, hns⟩
      · rintro ⟨hmem, hns⟩
        rcases List.mem_cons.mp hmem with rfl | hmem
        · exact absurd hx hns
        · exact ⟨hmem, hns⟩
    · rw [if_neg hx]
      simp only [List.mem_cons, ih]
      constructor
      · rintro (rfl | ⟨hmem, hns⟩)
        · exact ⟨Or.inl rfl, hx⟩
        · exact ⟨Or.inr hmem, fun hs => hns (Or.inr hs)⟩
      · rintro ⟨rfl | hmem, hns⟩
        · exact Or.inl rfl
        · by_cases hax : a = x
          · exact Or.inl hax
          · exact Or.inr ⟨hmem, fun hs => hs.elim hax hns⟩

theorem mem_dropDuplicates {α : Type} [DecidableEq α] (a : α) (l : List α) :
    a ∈ dropDuplicates l ↔ a ∈ l := by
  rw [dropDuplicates, mem_dropDupAux]
  simp

theorem nodup_dropDupAux {α : Type} [DecidableEq α] :
    ∀ (l seen : List α), (dropDupAux seen l).Nodup := by
  intro l
  induction l with
  | nil => intro seen; simp [dropDupAux]
  | cons x xs ih =>
    intro seen
    unfold dropDupAux
    by_cases hx : x ∈ seen
    · rw [if_pos hx]; exact ih seen
    · rw [if_neg hx]
      refine List.Nodup.cons ?_ (ih (x :: seen))
      intro hmem
      exact ((mem_dropDupAux x xs (x :: seen)).mp hmem).2 (List.mem_cons_self x seen)

theorem nodup_dropDuplicates {α : Type} [DecidableEq α] (l : List α) :
    (dropDuplicates l).Nodup := nodup_dropDupAux l []

theorem pyInt_of_nonneg (q : ℚ) (h : 0 ≤ q) : pyInt q = Int.floor q := by
  unfold pyInt
  rw [if_neg (not_lt.mpr h)]

theorem pySlice_natCast {α : Type} (l : List α) (A B : Nat)
    (hA : A ≤ l.length) (hB : B ≤ l.length) :
    pySlice l (A : Int) (B : Int) = (l.drop A).take (B - A) := by
  unfold pySlice
  rw [pyIdx_of_nonneg l.length (A : Int) (by omega) (by omega),
    pyIdx_of_nonneg l.length (B : Int) (by omega) (by omega)]
  congr 1

theorem width_zipWith {op : ℚ → ℚ → ℚ} {L : Nat} :
    ∀ (ll1 ll2 : List (List ℚ)),
      (∀ c ∈ ll1, c.length = L) → (∀ c ∈ ll2, c.length = L) →
      ∀ c ∈ List.zipWith (List.zipWith op) ll1 ll2, c.length = L := by
  intro ll1
  induction ll1 with
  | nil => intro ll2 _ _ c hc; simp at hc
  | cons x xs ih =>
    intro ll2 h1 h2 c hc
    cases ll2 with
    | nil => simp at hc
    | cons y ys =>
      rcases List.mem_cons.mp hc with rfl | hc
      · rw [List.length_zipWith, h1 x (List.mem_cons_self x xs),
          h2 y (List.mem_cons_self y ys)]
        omega
      · exact ih ys (fun c hcx => h1 c (List.mem_cons_of_mem x hcx))
          (fun c hcy => h2 c (List.mem_cons_of_mem y hcy)) c hc

theorem zipWith_max_self (l : List ℚ) : List.zipWith max l l = l := by
  induction l with
  | nil => rfl
  | cons x xs ih => simp [List.zipWith, max_self, ih]

theorem zipWith_zipWith_max_self (ll : List (List ℚ)) :
    List.zipWith (List.zipWith max) ll ll = ll := by
  induction ll with
  | nil => rfl
  | cons x xs ih => simp [List.zipWith, zipWith_max_self, ih]

theorem assembled_data_width (ds : Ai4epsDataset) (g : GaussFn)
    (ev stn : String) (rec : WaveformRecord) (r : Int)
    (hfit0 : 0 ≤ r - ds.first_arrival_index_in_final_window_if_no_shift)
    (hfit : ∀ ch ∈ rec.data,
      (r - ds.first_arrival_index_in_final_window_if_no_shift).toNat +
        ds.window_length_in_npts ≤ ch.length) :
    ∀ ch ∈ (assembledNoTransform ds g ev stn rec r).data,
      ch.length = ds.window_length_in_npts := by
  intro ch hch
  obtain ⟨ch0, hch0, rfl⟩ := List.mem_map.mp hch
  exact pySlice_fit_length ch0 _ _ hfit0 (hfit ch0 hch0)

theorem assembled_label_shape (ds : Ai4epsDataset) (g : GaussFn)
    (ev stn : String) (rec : WaveformRecord) (r : Int) :
    (assembledNoTransform ds g ev stn rec r).label.length = ds.phases.length ∧
    ∀ row ∈ (assembledNoTransform ds g ev stn rec r).label,
      row.length = ds.window_length_in_npts := by
  constructor
  · rw [show (assembledNoTransform ds g ev stn rec r).label =
      generate_label g ds.label_shape ds.label_width_in_npts
        ds.window_length_in_npts
        (expandedOf ds.phases rec.phase_type rec.phase_index
          (r - ds.first_arrival_index_in_final_window_if_no_shift)) from rfl,
      generate_label_length]
    exact List.length_map ds.phases _
  · exact generate_label_row_length g ds.label_shape ds.label_width_in_npts
      ds.window_length_in_npts _

theorem normalized_data_width (s : Sample) (L : Nat)
    (h : ∀ ch ∈ s.data, ch.length = L) :
    ∀ ch ∈ (normalize_waveform s).data, ch.length = L := by
  intro ch hch
  obtain ⟨ch0, hch0, rfl⟩ := List.mem_map.mp hch
  rw [normalize_channel_length]
  exact h ch0 hch0

theorem take_take_drop_partition {α : Type} (l : List α) (A B : Nat)
    (hAB : A ≤ B) : l.take A ++ ((l.drop A).take (B - A) ++ l.drop B) = l := by
  have hd : (l.drop A).drop (B - A) = l.drop B := by
    rw [List.drop_drop]
    congr 1
    omega
  calc l.take A ++ ((l.drop A).take (B - A) ++ l.drop B)
      = l.take A ++ ((l.drop A).take (B - A) ++ (l.drop A).drop (B - A)) := by
        rw [hd]
    _ = l.take A ++ l.drop A := by rw [List.take_append_drop]
    _ = l := List.take_append_drop A l

/-! Claim theorems. -/

/-- C2: for a record with a non-empty pick list and no transform configured,
the window bounds are `start = r - offset` and `end = start + window_length`
where `r` is the minimum raw arrival index, the cropped data is the slice
`[start, end)` of every channel (equal, when the window lies inside the raw
waveform, to the segment of `window_length` samples beginning at `start`),
and the reference arrival's raw index minus the window start equals the
configured offset exactly. -/
theorem C2_window_bounds_and_alignment (ds : Ai4epsDataset) (store : Store)
    (g : GaussFn) (idx : Int) (ev stn : String) (rec : WaveformRecord) (r : Int)
    (hl : pyListGet ds.index_to_waveform_id idx = some (ev, stn))
    (hs : store ev stn = some rec)
    (hm : rec.phase_index.min? = some r)
    (ht : ds.transform = none)
    (hlen : rec.phase_index.length = rec.phase_type.length)
    (hfit0 : 0 ≤ r - ds.first_arrival_index_in_final_window_if_no_shift)
    (hfit : ∀ ch ∈ rec.data,
      (r - ds.first_arrival_index_in_final_window_if_no_shift).toNat +
        ds.window_length_in_npts ≤ ch.length) :
    ∃ s, ds.assemble_core store g idx = .ok s ∧
      s.start_index = r - ds.first_arrival_index_in_final_window_if_no_shift ∧
      s.end_index = r - ds.first_arrival_index_in_final_window_if_no_shift +
        (ds.window_length_in_npts : Int) ∧
      s.data = rec.data.map (fun ch =>
        (ch.drop (r - ds.first_arrival_index_in_final_window_if_no_shift).toNat).take
          ds.window_length_in_npts) ∧
      r - s.start_index = ds.first_arrival_index_in_final_window_if_no_shift := by
  have hexp := expandPhaseIndex_eq rec.phase_type rec.phase_index
    (r - ds.first_arrival_index_in_final_window_if_no_shift) hlen ds.phases
  have h := assemble_core_eq ds store g idx ev stn rec r
    (expandedOf ds.phases rec.phase_type rec.phase_index
      (r - ds.first_arrival_index_in_final_window_if_no_shift))
    hl hs hm (by rw [ht]; exact hexp)
  rw [ht] at h
  refine ⟨_, h, rfl, rfl, ?_,
    (by omega : r - (r - ds.first_arrival_index_in_final_window_if_no_shift) =
      ds.first_arrival_index_in_final_window_if_no_shift)⟩
  show rec.data.map (fun ch => pySlice ch
      (r - ds.first_arrival_index_in_final_window_if_no_shift)
      (r - ds.first_arrival_index_in_final_window_if_no_shift +
        (ds.window_length_in_npts : Int))) = _
  refine List.map_congr_left ?_
  intro ch hch
  exact pySlice_fit ch _ _ hfit0 (hfit ch hch)

/-- C2 witness: the contract evaluated on a concrete record (single P pick
at raw index 5, offset 1, window length 4). -/
theorem C2_witness :
    (W2rec.phase_index.min? = some 5) ∧
    (∃ s, W2ds.assemble_core W2store g0 0 = .ok s ∧
      s.start_index = 5 - W2ds.first_arrival_index_in_final_window_if_no_shift ∧
      s.end_index = 5 - W2ds.first_arrival_index_in_final_window_if_no_shift +
        (W2ds.window_length_in_npts : Int) ∧
      s.data = W2rec.data.map (fun ch =>
        (ch.drop (5 - W2ds.first_arrival_index_in_final_window_if_no_shift).toNat).take
          W2ds.window_length_in_npts) ∧
      5 - s.start_index = W2ds.first_arrival_index_in_final_window_if_no_shift) :=
  ⟨by decide,
   C2_window_bounds_and_alignment W2ds W2store g0 0 "e2" "t2" W2rec 5
     (by decide) (by decide) (by decide) rfl (by decide) (by decide) (by decide)⟩

/-- C3: for a record with no transform configured, the returned phase-index
vector is exactly `expandedOf`: one entry per canonical phase in
canonical-list order, holding the window-local index (raw index of the first
occurrence of the phase minus the window start) when the phase is picked and
the fixed negative sentinel otherwise; pick entries whose phase type is not
canonical do not contribute. -/
theorem C3_canonical_phase_vector (ds : Ai4epsDataset) (store : Store)
    (g : GaussFn) (idx : Int) (ev stn : String) (rec : WaveformRecord) (r : Int)
    (hl : pyListGet ds.index_to_waveform_id idx = some (ev, stn))
    (hs : store ev stn = some rec)
    (hm : rec.phase_index.min? = some r)
    (ht : ds.transform = none)
    (hlen : rec.phase_index.length = rec.phase_type.length) :
    ∃ s, ds.get_item_without_stack store g idx = .ok s ∧
      s.phase_index = expandedOf ds.phases rec.phase_type rec.phase_index
        (r - ds.first_arrival_index_in_final_window_if_no_shift) ∧
      s.phase_index.length = ds.phases.length ∧
      s.phase_type = ds.phases := by
  have h := get_item_eq_of_no_transform ds store g idx ev stn rec r hl hs hm ht hlen
  exact ⟨_, h, rfl, List.length_map ds.phases _, rfl⟩

/-- C3 witness: a record whose picks appear in discovery order `X, S, P`
(with `X` non-canonical) yields the canonical-ordered vector
`[P ↦ 4, S ↦ 6, PS ↦ sentinel]`. -/
theorem C3_witness :
    (W3rec.phase_index.min? = some 5) ∧
    (∃ s, W3ds.get_item_without_stack W3store g0 0 = .ok s ∧
      s.phase_index = expandedOf W3ds.phases W3rec.phase_type W3rec.phase_index
        (5 - W3ds.first_arrival_index_in_final_window_if_no_shift) ∧
      s.phase_index.length = W3ds.phases.length ∧
      s.phase_type = W3ds.phases) :=
  ⟨by decide,
   C3_canonical_phase_vector W3ds W3store g0 0 "e3" "t3" W3rec 5
     (by decide) (by decide) (by decide) rfl (by decide)⟩

/-- C10: when the same canonical phase type occurs more than once among a
record's picks, the emitted window-local index comes from the first
occurrence of that type in the record's pick order: the entry at position
`j` of the output (for canonical phase `p` whose first occurrence in the
record's pick list is position `k`) equals the raw index stored at `k` minus
the window start. -/
theorem C10_first_one_wins (ds : Ai4epsDataset) (store : Store) (g : GaussFn)
    (idx : Int) (ev stn : String) (rec : WaveformRecord) (r : Int)
    (j k : Nat) (p : String)
    (hl : pyListGet ds.index_to_waveform_id idx = some (ev, stn))
    (hs : store ev stn = some rec)
    (hm : rec.phase_index.min? = some r)
    (ht : ds.transform = none)
    (hlen : rec.phase_index.length = rec.phase_type.length)
    (hj : ds.phases.get? j = some p)
    (hk : firstIdxOf p rec.phase_type = some k) :
    ∃ s, ds.get_item_without_stack store g idx = .ok s ∧
      s.phase_index.get? j = some (rec.phase_index.getD k 0 -
        (r - ds.first_arrival_index_in_final_window_if_no_shift)) := by
  have h := get_item_eq_of_no_transform ds store g idx ev stn rec r hl hs hm ht hlen
  refine ⟨_, h, ?_⟩
  have hj2 : ds.phases[j]? = some p := by
    rw [← List.get?_eq_getElem?]; exact hj
  show (expandedOf ds.phases rec.phase_type rec.phase_index
    (r - ds.first_arrival_index_in_final_window_if_no_shift)).get? j = _
  unfold expandedOf
  rw [List.get?_eq_getElem?, List.getElem?_map, hj2]
  simp [hk]

/-- C10 witness: a record listing P twice (raw indices 30 then 50) emits the
window-local index of the first occurrence, `30 - 28 = 2`. -/
theorem C10_witness :
    (firstIdxOf "P" W10rec.phase_type = some 0) ∧
    (∃ s, W10ds.get_item_without_stack W10store g0 0 = .ok s ∧
      s.phase_index.get? 0 = some (W10rec.phase_index.getD 0 0 -
        (30 - W10ds.first_arrival_index_in_final_window_if_no_shift))) :=
  ⟨by decide,
   C10_first_one_wins W10ds W10store g0 0 "e10" "t10" W10rec 30 0 0 "P"
     (by decide) (by decide) (by decide) rfl (by decide) (by decide) (by decide)⟩

/-- C7: stacking a sample with itself leaves the label tensor unchanged,
because `stack_rand` combines the two label stacks by elementwise maximum
and `max x x = x`. -/
theorem C7_stack_self_label_unchanged (s : Sample) (w : Nat) :
    (stack_rand s s w).label = s.label :=
  zipWith_zipWith_max_self s.label

/-- C8 (amended): requesting an index `idx ≥ size` or `idx < -size` fails
with an IndexError; the first Python list subscription already raises before
any randomness is drawn. -/
theorem C8_out_of_range_fails (ds : Ai4epsDataset) (store : Store)
    (g : GaussFn) (idx : Int) (u : ℚ) (partner : Int)
    (h : (ds.len : Int) ≤ idx ∨ idx < -(ds.len : Int)) :
    ds.getitem store g idx u partner = .error .indexError := by
  have hnone : pyListGet ds.index_to_waveform_id idx = none :=
    pyListGet_none_of_out ds.index_to_waveform_id idx h
  unfold Ai4epsDataset.getitem Ai4epsDataset.get_item_without_stack
    Ai4epsDataset.assemble_core
  simp only [hnone]
  rfl

/-- C8 witness: the boundary scenario — requesting index `size()` (here 1)
on a one-element dataset raises IndexError. -/
theorem C8_witness :
    ((C8ds.len : Int) ≤ 1 ∨ (1 : Int) < -(C8ds.len : Int)) ∧
    C8ds.getitem C8store g0 1 1 0 = .error .indexError :=
  ⟨Or.inl (by decide),
   C8_out_of_range_fails C8ds C8store g0 1 1 0 (Or.inl (by decide))⟩

/-- C8 counterexample: index `-1` lies outside `[0, size())`, yet the access
succeeds — Python list indexing wraps negative indices, so the claim that
every index outside `[0, size())` fails is false as stated. -/
theorem C8_counterexample :
    (C8ds.getitem C8store g0 (-1) 1 0).map (fun s => s.event_id) = .ok "ev8" ∧
    (-1 : Int) < 0 :=
  ⟨rfl, by decide⟩

/-- C5 counterexample: a record whose earliest pick is at raw index 0 with
offset 2 (window `[-2, 2)`) does not raise any error — the slice is silently
clamped by Python semantics and the returned waveform has 0 samples instead
of the configured 4. -/
theorem C5_counterexample :
    (C5ds.get_item_without_stack C5store g0 0).map
      (fun s => s.data.map List.length) = .ok [0] ∧
    C5ds.window_length_in_npts = 4 :=
  ⟨rfl, rfl⟩

/-- C5 (amended): when the computed window starts before the waveform or
ends past it, sample extraction still succeeds — the slice is silently
clamped (Python slice semantics), possibly yielding fewer than
`window_length` samples; no IndexError-class failure occurs. -/
theorem C5_silent_clamping (ds : Ai4epsDataset) (store : Store) (g : GaussFn)
    (idx : Int) (ev stn : String) (rec : WaveformRecord) (r : Int)
    (hl : pyListGet ds.index_to_waveform_id idx = some (ev, stn))
    (hs : store ev stn = some rec)
    (hm : rec.phase_index.min? = some r)
    (ht : ds.transform = none)
    (hlen : rec.phase_index.length = rec.phase_type.length)
    (_hout : r - ds.first_arrival_index_in_final_window_if_no_shift < 0 ∨
      ∃ ch ∈ rec.data, (ch.length : Int) <
        r - ds.first_arrival_index_in_final_window_if_no_shift +
          (ds.window_length_in_npts : Int)) :
    ∃ s, ds.get_item_without_stack store g idx = .ok s :=
  ⟨_, get_item_eq_of_no_transform ds store g idx ev stn rec r hl hs hm ht hlen⟩

/-- C5 witness: the out-of-range window `[-2, 2)` still produces a sample. -/
theorem C5_witness :
    ((0 : Int) - C5ds.first_arrival_index_in_final_window_if_no_shift < 0 ∨
      ∃ ch ∈ C5rec.data, (ch.length : Int) <
        0 - C5ds.first_arrival_index_in_final_window_if_no_shift +
          (C5ds.window_length_in_npts : Int)) ∧
    (∃ s, C5ds.get_item_without_stack C5store g0 0 = .ok s) :=
  ⟨Or.inl (by decide),
   C5_silent_clamping C5ds C5store g0 0 "e5" "t5" C5rec 0
     (by decide) (by decide) (by decide) rfl (by decide) (Or.inl (by decide))⟩

/-- C6 counterexample: constructing a dataset with offset 4 equal to the
window length 4 succeeds (no configuration check exists) and the dataset
even serves samples; the claim that construction fails is false. -/
theorem C6_counterexample :
    C6ds.first_arrival_index_in_final_window_if_no_shift = 4 ∧
    C6ds.window_length_in_npts = 4 ∧
    (C6ds.get_item_without_stack C6store g0 0).map (fun s => s.event_id) =
      .ok "e6" :=
  ⟨rfl, rfl, rfl⟩

/-- C6 (amended): `__init__` performs no validation: a dataset constructed
with offset ≥ window length is accepted and remains fully operational —
sample access still succeeds on it. -/
theorem C6_no_construction_check (ilist : List (String × String)) (sh : String)
    (w L : Nat) (ph : List String) (off : Int) (p : ℚ) (store : Store)
    (g : GaussFn) (idx : Int) (ev stn : String) (rec : WaveformRecord) (r : Int)
    (_hoff : (L : Int) ≤ off)
    (hl : pyListGet ilist idx = some (ev, stn))
    (hs : store ev stn = some rec)
    (hm : rec.phase_index.min? = some r)
    (hlen : rec.phase_index.length = rec.phase_type.length) :
    ∃ s, (Ai4epsDataset.init ilist none sh w L ph off p).get_item_without_stack
      store g idx = .ok s :=
  ⟨_, get_item_eq_of_no_transform (Ai4epsDataset.init ilist none sh w L ph off p)
    store g idx ev stn rec r hl hs hm rfl hlen⟩

/-- C6 witness: offset 4 = window length 4, construction and access both
succeed. -/
theorem C6_witness :
    ((4 : Int) ≤ 4) ∧
    (∃ s, (Ai4epsDataset.init [("e6", "t6")] none "triangle" 2 4 ["P"] 4
      0).get_item_without_stack C6store g0 0 = .ok s) :=
  ⟨by decide,
   C6_no_construction_check [("e6", "t6")] "triangle" 2 4 ["P"] 4 0 C6store g0
     0 "e6" "t6" C6rec 10 (by decide) (by decide) (by decide) (by decide)
     (by decide)⟩

/-- C4 counterexample: with a hook that rewrites the proposed bounds to
`[0, 4)`, the sample's stored `start_index` is 0 (the hook ran), yet the
emitted window-local pick index is `2 = 10 - 8`, computed with the original
start 8 — under the claim it would be `10 = 10 - 0`. -/
theorem C4_counterexample :
    (C4ds.get_item_without_stack C4store g0 0).map
      (fun s => (s.start_index, s.phase_index)) = .ok (0, [2]) ∧
    (2 : Int) ≠ 10 - 0 :=
  ⟨rfl, by decide⟩

/-- C4 (amended): when a transform hook is configured, the subsequent
cropping and phase-index remapping use the originally proposed bounds
`start = r - offset`, `end = start + window_length` — not the bounds the
hook wrote into the sample (which survive only in the stored
`start_index`). -/
theorem C4_original_bounds_used (ds : Ai4epsDataset) (store : Store)
    (g : GaussFn) (idx : Int) (ev stn : String) (rec : WaveformRecord)
    (r : Int) (f : Sample → Sample) (E : List Int)
    (hl : pyListGet ds.index_to_waveform_id idx = some (ev, stn))
    (hs : store ev stn = some rec)
    (hm : rec.phase_index.min? = some r)
    (htr : ds.transform = some f)
    (hexp : expandPhaseIndex
      (f (mkRawSample ev stn rec
        (r - ds.first_arrival_index_in_final_window_if_no_shift)
        (r - ds.first_arrival_index_in_final_window_if_no_shift +
          (ds.window_length_in_npts : Int)))).phase_type
      ((f (mkRawSample ev stn rec
        (r - ds.first_arrival_index_in_final_window_if_no_shift)
        (r - ds.first_arrival_index_in_final_window_if_no_shift +
          (ds.window_length_in_npts : Int)))).phase_index.map
        (fun i => i - (r - ds.first_arrival_index_in_final_window_if_no_shift)))
      ds.phases = some E) :
    ∃ s, ds.assemble_core store g idx = .ok s ∧
      s.data = (f (mkRawSample ev stn rec
        (r - ds.first_arrival_index_in_final_window_if_no_shift)
        (r - ds.first_arrival_index_in_final_window_if_no_shift +
          (ds.window_length_in_npts : Int)))).data.map
        (fun ch => pySlice ch
          (r - ds.first_arrival_index_in_final_window_if_no_shift)
          (r - ds.first_arrival_index_in_final_window_if_no_shift +
            (ds.window_length_in_npts : Int))) ∧
      s.phase_index = E ∧
      s.start_index = (f (mkRawSample ev stn rec
        (r - ds.first_arrival_index_in_final_window_if_no_shift)
        (r - ds.first_arrival_index_in_final_window_if_no_shift +
          (ds.window_length_in_npts : Int)))).start_index := by
  have h := assemble_core_eq ds store g idx ev stn rec r E hl hs hm
    (by rw [htr]; exact hexp)
  rw [htr] at h
  exact ⟨_, h, rfl, rfl, rfl⟩

/-- C4 witness: the bounds-rewriting hook `C4hook` on a concrete record —
the cropping and remapping are those of the original bounds `[8, 12)`. -/
theorem C4_witness :
    C4ds.transform = some C4hook ∧
    (∃ s, C4ds.assemble_core C4store g0 0 = .ok s ∧
      s.data = (C4hook (mkRawSample "e4" "t4" C4rec
        (10 - C4ds.first_arrival_index_in_final_window_if_no_shift)
        (10 - C4ds.first_arrival_index_in_final_window_if_no_shift +
          (C4ds.window_length_in_npts : Int)))).data.map
        (fun ch => pySlice ch
          (10 - C4ds.first_arrival_index_in_final_window_if_no_shift)
          (10 - C4ds.first_arrival_index_in_final_window_if_no_shift +
            (C4ds.window_length_in_npts : Int))) ∧
      s.phase_index = [2] ∧
      s.start_index = (C4hook (mkRawSample "e4" "t4" C4rec
        (10 - C4ds.first_arrival_index_in_final_window_if_no_shift)
        (10 - C4ds.first_arrival_index_in_final_window_if_no_shift +
          (C4ds.window_length_in_npts : Int)))).start_index) :=
  ⟨rfl,
   C4_original_bounds_used C4ds C4store g0 0 "e4" "t4" C4rec 10 C4hook [2]
     (by decide) (by decide) (by decide) rfl (by decide)⟩

/-- C1 counterexample: a valid index whose record has its earliest pick at
raw index 1 with offset 2 — the Python slice `[-1, 3)` silently clamps and
the returned sample's waveform has 0 samples along the time axis instead of
the configured window length 4, so the claimed width invariant fails as
stated. -/
theorem C1_counterexample :
    (C1ds.getitem C1store g0 0 1 0).map (fun s => s.data.map List.length) =
      .ok [0] ∧
    C1ds.window_length_in_npts = 4 :=
  ⟨rfl, rfl⟩

/-- C1 (amended): for every valid index whose record's window fits inside
the raw waveform (and, when stacking fires, whose partner's window fits as
well), with no transform configured, the returned sample — stacked or not —
has every waveform channel of exactly `window_length_in_npts` samples, one
label row per canonical phase, and every label row of exactly
`window_length_in_npts` samples. -/
theorem C1_fixed_widths (ds : Ai4epsDataset) (store : Store) (g : GaussFn)
    (idx : Int) (u : ℚ) (partner : Int) (ev stn : String)
    (rec : WaveformRecord) (r : Int)
    (hl : pyListGet ds.index_to_waveform_id idx = some (ev, stn))
    (hs : store ev stn = some rec)
    (hm : rec.phase_index.min? = some r)
    (ht : ds.transform = none)
    (hlen : rec.phase_index.length = rec.phase_type.length)
    (hfit0 : 0 ≤ r - ds.first_arrival_index_in_final_window_if_no_shift)
    (hfit : ∀ ch ∈ rec.data,
      (r - ds.first_arrival_index_in_final_window_if_no_shift).toNat +
        ds.window_length_in_npts ≤ ch.length)
    (hpartner : u < ds.random_stack_two_waveforms_prob →
      ∃ ev2 stn2 rec2 r2,
        pyListGet ds.index_to_waveform_id partner = some (ev2, stn2) ∧
        store ev2 stn2 = some rec2 ∧
        rec2.phase_index.min? = some r2 ∧
        rec2.phase_index.length = rec2.phase_type.length ∧
        0 ≤ r2 - ds.first_arrival_index_in_final_window_if_no_shift ∧
        ∀ ch ∈ rec2.data,
          (r2 - ds.first_arrival_index_in_final_window_if_no_shift).toNat +
            ds.window_length_in_npts ≤ ch.length) :
    ∃ fs, ds.getitem store g idx u partner = .ok fs ∧
      (∀ ch ∈ fs.data, ch.length = ds.window_length_in_npts) ∧
      fs.label.length = ds.phases.length ∧
      (∀ row ∈ fs.label, row.length = ds.window_length_in_npts) := by
  have h1 := get_item_eq_of_no_transform ds store g idx ev stn rec r hl hs hm ht hlen
  have hA : ∀ ch ∈ (normalize_waveform (assembledNoTransform ds g ev stn rec r)).data,
      ch.length = ds.window_length_in_npts :=
    normalized_data_width _ _ (assembled_data_width ds g ev stn rec r hfit0 hfit)
  unfold Ai4epsDataset.getitem
  rw [h1]
  dsimp only
  by_cases hu : u < ds.random_stack_two_waveforms_prob
  · obtain ⟨ev2, stn2, rec2, r2, hl2, hs2, hm2, hlen2, hfa, hfb⟩ := hpartner hu
    have h2 := get_item_eq_of_no_transform ds store g partner ev2 stn2 rec2 r2
      hl2 hs2 hm2 ht hlen2
    have hB : ∀ ch ∈ (normalize_waveform
        (assembledNoTransform ds g ev2 stn2 rec2 r2)).data,
        ch.length = ds.window_length_in_npts :=
      normalized_data_width _ _ (assembled_data_width ds g ev2 stn2 rec2 r2 hfa hfb)
    rw [if_pos hu, h2]
    refine ⟨_, rfl, ?_, ?_, ?_⟩
    · exact normalized_data_width
        (stack_rand (normalize_waveform (assembledNoTransform ds g ev stn rec r))
          (normalize_waveform (assembledNoTransform ds g ev2 stn2 rec2 r2))
          ds.label_width_in_npts)
        ds.window_length_in_npts
        (width_zipWith _ _ hA hB)
    · show (List.zipWith (List.zipWith max)
        (assembledNoTransform ds g ev stn rec r).label
        (assembledNoTransform ds g ev2 stn2 rec2 r2).label).length = ds.phases.length
      rw [List.length_zipWith, (assembled_label_shape ds g ev stn rec r).1,
        (assembled_label_shape ds g ev2 stn2 rec2 r2).1, min_self]
    · show ∀ row ∈ List.zipWith (List.zipWith max)
        (assembledNoTransform ds g ev stn rec r).label
        (assembledNoTransform ds g ev2 stn2 rec2 r2).label,
        row.length = ds.window_length_in_npts
      exact width_zipWith _ _ (assembled_label_shape ds g ev stn rec r).2
        (assembled_label_shape ds g ev2 stn2 rec2 r2).2
  · rw [if_neg hu]
    refine ⟨_, rfl, ?_, ?_, ?_⟩
    · exact normalized_data_width
        (normalize_waveform (assembledNoTransform ds g ev stn rec r))
        ds.window_length_in_npts hA
    · exact (assembled_label_shape ds g ev stn rec r).1
    · exact (assembled_label_shape ds g ev stn rec r).2

/-- C1 witness: a dataset with stacking probability 1/2, exercised with a
uniform draw of 0 so the stacking branch runs with the same record as
partner; every waveform channel and every label row of the result has the
configured 4 samples. -/
theorem C1_witness :
    (0 ≤ (3 : Int) - W1ds.first_arrival_index_in_final_window_if_no_shift) ∧
    (∃ fs, W1ds.getitem W1store g0 0 0 0 = .ok fs ∧
      (∀ ch ∈ fs.data, ch.length = W1ds.window_length_in_npts) ∧
      fs.label.length = W1ds.phases.length ∧
      (∀ row ∈ fs.label, row.length = W1ds.window_length_in_npts)) :=
  ⟨by decide,
   C1_fixed_widths W1ds W1store g0 0 0 0 "ew1" "t1" W1rec 3
     (by decide) (by decide) (by decide) rfl (by decide) (by decide) (by decide)
     (fun _ => ⟨"ew1", "t1", W1rec, 3, by decide, by decide, by decide,
       by decide, by decide, by decide⟩)⟩

/-- C9: for every pick table, every seed, and every rearrangement the
seeded shuffle may produce (assumed only to permute its input, which is the
shuffle contract), the splitter returns three lists that concatenate to the
shuffled unique-key list, whose members are exactly the keys occurring in
the table, pairwise disjoint, with sizes given by the cumulative
floor-rounded ratio boundaries (the remainder going to the last partition);
and the output is determined by (seed, input) alone. -/
theorem C9_split_contract
    (shuffle : Nat → List (String × String) → List (String × String))
    (seed : Nat) (rows : List (String × String)) (r0 r1 : ℚ)
    (hperm : List.Perm (shuffle seed (dropDuplicates rows)) (dropDuplicates rows))
    (h0 : 0 ≤ r0) (h1 : 0 ≤ r1) (hsum : r0 + r1 ≤ 1) :
    ∃ train tst val,
      split_train_test_val_for_ai4eps shuffle seed rows r0 r1 = (train, tst, val) ∧
      train ++ tst ++ val = shuffle seed (dropDuplicates rows) ∧
      (∀ x, (x ∈ train ∨ x ∈ tst ∨ x ∈ val) ↔ x ∈ rows) ∧
      train.Disjoint tst ∧ train.Disjoint val ∧ tst.Disjoint val ∧
      train.length = (Int.floor (r0 * ((dropDuplicates rows).length : ℚ))).toNat ∧
      tst.length = (Int.floor ((r0 + r1) * ((dropDuplicates rows).length : ℚ))).toNat -
        (Int.floor (r0 * ((dropDuplicates rows).length : ℚ))).toNat ∧
      val.length = (dropDuplicates rows).length -
        (Int.floor ((r0 + r1) * ((dropDuplicates rows).length : ℚ))).toNat ∧
      (∀ seed2 rows2, seed2 = seed → rows2 = rows →
        split_train_test_val_for_ai4eps shuffle seed2 rows2 r0 r1 =
          (train, tst, val)) := by
  have hc0 : (0:ℚ) ≤ ((dropDuplicates rows).length : ℚ) := Nat.cast_nonneg _
  have hnn : (0:ℚ) ≤ r0 * ((dropDuplicates rows).length : ℚ) := mul_nonneg h0 hc0
  have hnn2 : (0:ℚ) ≤ (r0 + r1) * ((dropDuplicates rows).length : ℚ) :=
    mul_nonneg (by linarith) hc0
  have hf0 : 0 ≤ Int.floor (r0 * ((dropDuplicates rows).length : ℚ)) :=
    Int.floor_nonneg.mpr hnn
  have hf0b : 0 ≤ Int.floor ((r0 + r1) * ((dropDuplicates rows).length : ℚ)) :=
    Int.floor_nonneg.mpr hnn2
  have hfAB : Int.floor (r0 * ((dropDuplicates rows).length : ℚ)) ≤
      Int.floor ((r0 + r1) * ((dropDuplicates rows).length : ℚ)) :=
    Int.floor_le_floor (by nlinarith)
  have hfBn : Int.floor ((r0 + r1) * ((dropDuplicates rows).length : ℚ)) ≤
      ((dropDuplicates rows).length : Int) := by
    have hle : (r0 + r1) * ((dropDuplicates rows).length : ℚ) ≤
        ((dropDuplicates rows).length : ℚ) := by nlinarith
    have h2 := Int.floor_le_floor hle
    rwa [Int.floor_natCast] at h2
  set l := shuffle seed (dropDuplicates rows) with hl0
  set A := (Int.floor (r0 * ((dropDuplicates rows).length : ℚ))).toNat with hA0
  set Bn := (Int.floor ((r0 + r1) * ((dropDuplicates rows).length : ℚ))).toNat with hB0
  have hnl : l.length = (dropDuplicates rows).length := hperm.length_eq
  have hABn : A ≤ Bn := by omega
  have hBn : Bn ≤ (dropDuplicates rows).length := by omega
  have hAl : A ≤ l.length := by omega
  have hBl : Bn ≤ l.length := by omega
  have hAint : pyInt (r0 * ((l.length : Nat) : ℚ)) = (A : Int) := by
    rw [hnl, pyInt_of_nonneg _ hnn, hA0]
    exact (Int.toNat_of_nonneg hf0).symm
  have hBint : pyInt ((r0 + r1) * ((l.length : Nat) : ℚ)) = (Bn : Int) := by
    rw [hnl, pyInt_of_nonneg _ hnn2, hB0]
    exact (Int.toNat_of_nonneg hf0b).symm
  have e1 : pySlice l (0 : Int) (A : Int) = l.take A := by
    have h1e := pySlice_natCast l 0 A (by omega) hAl
    simpa using h1e
  have e2 : pySlice l (A : Int) (Bn : Int) = (l.drop A).take (Bn - A) :=
    pySlice_natCast l A Bn hAl hBl
  have e3 : pySlice l (Bn : Int) ((l.length : Nat) : Int) = l.drop Bn := by
    have h3e := pySlice_natCast l Bn l.length hBl (le_refl _)
    rw [h3e]
    exact List.take_of_length_le (by simp)
  have hsplit : split_train_test_val_for_ai4eps shuffle seed rows r0 r1 =
      (l.take A, (l.drop A).take (Bn - A), l.drop Bn) := by
    unfold split_train_test_val_for_ai4eps
    dsimp only
    rw [← hl0, hAint, hBint, e1, e2, e3]
  have hpart : l.take A ++ ((l.drop A).take (Bn - A) ++ l.drop Bn) = l :=
    take_take_drop_partition l A Bn hABn
  have hndl : (l.take A ++ ((l.drop A).take (Bn - A) ++ l.drop Bn)).Nodup := by
    rw [hpart]
    exact (hperm.nodup_iff).mpr (nodup_dropDuplicates rows)
  obtain ⟨-, hnd2, hdisj⟩ := List.nodup_append.mp hndl
  obtain ⟨-, -, d23⟩ := List.nodup_append.mp hnd2
  obtain ⟨d12, d13⟩ := List.disjoint_append_right.mp hdisj
  refine ⟨l.take A, (l.drop A).take (Bn - A), l.drop Bn, hsplit, ?_, ?_,
    d12, d13, d23, ?_, ?_, ?_, ?_⟩
  · rw [List.append_assoc]
    exact hpart
  · intro x
    rw [← mem_dropDuplicates x rows, ← hperm.mem_iff]
    conv_rhs => rw [← hpart]
    simp [List.mem_append, or_assoc]
  · rw [List.length_take]
    omega
  · rw [List.length_take, List.length_drop]
    omega
  · rw [List.length_drop]
    omega
  · intro seed2 rows2 hseed hrows
    subst hseed
    subst hrows
    exact hsplit

/-- C9 witness: four concrete rows with one duplicate key, ratios 1/2 and
1/4, the reversing shuffle; the contract instantiates and the hypotheses
hold by computation. -/
theorem C9_witness :
    List.Perm (W9shuffle 3407 (dropDuplicates W9rows)) (dropDuplicates W9rows) ∧
    (∃ train tst val,
      split_train_test_val_for_ai4eps W9shuffle 3407 W9rows (1/2) (1/4) =
        (train, tst, val) ∧
      train ++ tst ++ val = W9shuffle 3407 (dropDuplicates W9rows) ∧
      (∀ x, (x ∈ train ∨ x ∈ tst ∨ x ∈ val) ↔ x ∈ W9rows) ∧
      train.Disjoint tst ∧ train.Disjoint val ∧ tst.Disjoint val ∧
      train.length =
        (Int.floor ((1/2 : ℚ) * ((dropDuplicates W9rows).length : ℚ))).toNat ∧
      tst.length =
        (Int.floor ((1/2 + 1/4 : ℚ) * ((dropDuplicates W9rows).length : ℚ))).toNat -
        (Int.floor ((1/2 : ℚ) * ((dropDuplicates W9rows).length : ℚ))).toNat ∧
      val.length = (dropDuplicates W9rows).length -
        (Int.floor ((1/2 + 1/4 : ℚ) * ((dropDuplicates W9rows).length : ℚ))).toNat ∧
      (∀ seed2 rows2, seed2 = 3407 → rows2 = W9rows →
        split_train_test_val_for_ai4eps W9shuffle seed2 rows2 (1/2) (1/4) =
          (train, tst, val))) :=
  ⟨by decide,
   C9_split_contract W9shuffle 3407 W9rows (1/2) (1/4) (by decide)
     (by norm_num) (by norm_num) (by norm_num)⟩

end PhaseNetTF
